import Mathlib

/-!
Verification of the WhisperZone chat-server core (src/app.py).

The file shallowly embeds the room state and real-time fan-out engine:
Redis room state (one hash per room with a `members` field and a `messages`
field, each stored as a JSON string), the HTTP-style operations
`create_room`, `join_room_api` and `save_chat`, and the socket handlers
`handle_message`, `handle_connect` and `handle_disconnect`.

Modelling conventions:
* A Redis hash field holds the JSON parse of the stored string.  Since the
  code only ever stores `json.dumps` of a name-to-flag dict (`members`) or of
  a list of message dicts (`messages`), and `json.loads` inverts `json.dumps`,
  the store holds the parsed values directly (`FieldVal`).  A field that was
  never set is `FieldVal.missing` (`redis.hget` returns nil, and
  `json.loads(None)` raises).
* Python dicts preserve insertion order, so a JSON object is an ordered
  association list with unique keys; `d[k] = v` updates in place or appends,
  `del d[k]` removes the entry, `list(d.keys())` lists keys in order.
* `session.get` yields `Option String`; Python truthiness (`if not name`)
  makes both `None` and the empty string falsy.  Python f-string
  interpolation prints `None` as the four-character string "None".
* Each socket handler returns the ordered list of externally visible actions
  it performed (joins, sends, broadcasts, store writes) together with the
  resulting store; `none` models an uncaught exception (a JSON parse or dict
  operation on a malformed field).
* `random.choice` draws are modelled by an oracle `pick : Nat → Fin 26`
  giving the index of each successive draw; the `while True` retry loop of
  `generate_unique_code` is embedded with `Nat.find` under the precondition
  that some attempt yields an unallocated code.
* MongoDB's `db.chats` collection is a list of archive records and
  `insert_one` appends to it.
-/

/-- A chat message as built by `handle_message`: sender display name (absent
when the session carries no name), body, and formatted timestamp string. -/
structure Message where
  name : Option String
  message : String
  timestamp : String
deriving DecidableEq, Repr

/-- The JSON parse of one Redis hash field.  The code only ever stores a JSON
object mapping display names to presence flags (the `members` field) or a JSON
array of messages (the `messages` field); `missing` models an absent field. -/
inductive FieldVal where
  | obj (m : List (String × Bool)) : FieldVal
  | arr (msgs : List Message) : FieldVal
  | missing : FieldVal
deriving DecidableEq, Repr

/-- The two fields of the Redis hash `room:{code}`. -/
structure RoomRecord where
  members : FieldVal
  messages : FieldVal
deriving DecidableEq, Repr

/-- The Redis store: room code to room hash, in allocation order. -/
abbrev Store := List (String × RoomRecord)

/-- The per-connection session as read by the handlers. -/
structure Session where
  room : Option String
  name : Option String
deriving DecidableEq, Repr

/-- Python f-string interpolation of an optional string: None prints "None". -/
def pystr : Option String → String
  | none => "None"
  | some s => s

/-- Python truthiness of an optional string: None and "" are falsy. -/
def isFalsy : Option String → Bool
  | none => true
  | some s => s == ""

/-- Look a room code up in the store (`redis.exists` / `redis.hget`). -/
def lookupRoom : Store → String → Option RoomRecord
  | [], _ => none
  | (k, r) :: rest, c => if k = c then some r else lookupRoom rest c

/-- `redis.hset(room, "members", v)`: overwrite the members field of the
room's hash, creating the hash when the key is absent. -/
def hsetMembers : Store → String → FieldVal → Store
  | [], c, v => [(c, ⟨v, FieldVal.missing⟩)]
  | (k, r) :: rest, c, v =>
    if k = c then (k, { r with members := v }) :: rest
    else (k, r) :: hsetMembers rest c v

/-- `redis.hset(room, "messages", v)`: overwrite the messages field of the
room's hash, creating the hash when the key is absent. -/
def hsetMessages : Store → String → FieldVal → Store
  | [], c, v => [(c, ⟨FieldVal.missing, v⟩)]
  | (k, r) :: rest, c, v =>
    if k = c then (k, { r with messages := v }) :: rest
    else (k, r) :: hsetMessages rest c v

/-- Python dict assignment `members[name] = True`: replace in place, else
append at the end (insertion order preserved). -/
def setKeyTrue : List (String × Bool) → String → List (String × Bool)
  | [], k => [(k, true)]
  | (k', v) :: rest, k =>
    if k' = k then (k', true) :: rest else (k', v) :: setKeyTrue rest k

/-- Python membership test `name in members` (key lookup). -/
def containsKey : List (String × Bool) → String → Bool
  | [], _ => false
  | (k', _) :: rest, k => if k' = k then true else containsKey rest k

/-- Python `del members[name]`: drop the entry carrying that key. -/
def delKey : List (String × Bool) → String → List (String × Bool)
  | [], _ => []
  | (k', v) :: rest, k => if k' = k then rest else (k', v) :: delKey rest k

/-- `list(members.keys())` in insertion order. -/
def keysOf (m : List (String × Bool)) : List String := m.map Prod.fst

/-- One payload pushed over the socket transport. -/
inductive Payload where
  | msg (m : Message) : Payload
  | membersList (names : List String) : Payload
  | prevMessages (msgs : List Message) : Payload
deriving DecidableEq, Repr

/-- One externally visible action of a socket handler, recorded in program
order: joining the delivery group, a private send to the connecting client,
a broadcast to a room, or a Redis field write. -/
inductive Event where
  | joinGroup (room : String) : Event
  | sendPrivate (p : Payload) : Event
  | sendRoom (room : Option String) (p : Payload) : Event
  | storeWrite (room : String) (field : String) (v : FieldVal) : Event
deriving DecidableEq, Repr

/-- Result of one of the three HTTP-style endpoints. -/
inductive ApiResult where
  | ok (room : Option String) (name : Option String) : ApiResult
  | nameRequired : ApiResult
  | roomNotFound : ApiResult
  | roomIdRequired : ApiResult
  | saved : ApiResult
deriving DecidableEq, Repr

/-- `string.ascii_uppercase`. -/
def ascii_uppercase : List Char := "ABCDEFGHIJKLMNOPQRSTUVWXYZ".toList

/-- `random.choice(ascii_uppercase)` for the k-th draw of the oracle. -/
def chooseUpper (pick : Nat → Fin 26) (k : Nat) : Char :=
  ascii_uppercase.get (Fin.cast (by decide) (pick k))

/-- The attempt-th candidate code:
`"".join(random.choice(ascii_uppercase) for _ in range(length))`. -/
def sampleCode (len : Nat) (pick : Nat → Fin 26) (attempt : Nat) : String :=
  String.mk ((List.range len).map fun i => chooseUpper pick (attempt * len + i))

/-- `generate_unique_code(length)` (src/app.py lines 31-37): resample until
`redis.exists` fails; embedded via `Nat.find` under the precondition that
some attempt produces an unallocated code. -/
def generate_unique_code (store : Store) (len : Nat) (pick : Nat → Fin 26)
    (h : ∃ n, lookupRoom store (sampleCode len pick n) = none) : String :=
  sampleCode len pick (Nat.find h)

/-- `POST /api/create-room` (src/app.py lines 39-54): require a truthy name,
generate a fresh 6-character code, initialise empty members and messages,
bind the session.  The pure model cannot raise, so the CreationFailed branch
is unreachable. -/
def create_room (store : Store) (sess : Session) (name : Option String)
    (pick : Nat → Fin 26)
    (h : ∃ n, lookupRoom store (sampleCode 6 pick n) = none) :
    ApiResult × Store × Session :=
  if isFalsy name then (ApiResult.nameRequired, store, sess)
  else
    let code := generate_unique_code store 6 pick h
    (ApiResult.ok (some code) name,
     hsetMessages (hsetMembers store code (FieldVal.obj [])) code
       (FieldVal.arr []),
     { room := some code, name := name })

/-- `POST /api/join-room` (src/app.py lines 56-72): require a truthy name
first, then an existing room, then bind the session.  The store is not
written.  The pure model cannot raise, so the JoinFailed branch is
unreachable. -/
def join_room_api (store : Store) (sess : Session)
    (name code : Option String) : ApiResult × Session :=
  if isFalsy name then (ApiResult.nameRequired, sess)
  else
    match lookupRoom store (pystr code) with
    | none => (ApiResult.roomNotFound, sess)
    | some _ => (ApiResult.ok code name, { room := code, name := name })

/-- A MongoDB archive record inserted by `save_chat`. -/
structure ChatRecord where
  room_id : String
  messages : FieldVal
deriving DecidableEq, Repr

/-- `POST /api/save-chat` (src/app.py lines 74-93): require a truthy room id
naming an existing room, read the messages field (`or "[]"` supplies an empty
array when the field is absent) and insert one archive record into
`db.chats`.  The Redis store is returned unchanged: the handler only reads
it. -/
def save_chat (store : Store) (chats : List ChatRecord)
    (room : Option String) : ApiResult × Store × List ChatRecord :=
  if isFalsy room then (ApiResult.roomIdRequired, store, chats)
  else
    match lookupRoom store (pystr room) with
    | none => (ApiResult.roomNotFound, store, chats)
    | some rec =>
      let parsed :=
        match rec.messages with
        | FieldVal.missing => FieldVal.arr []
        | v => v
      (ApiResult.saved, store,
       chats ++ [{ room_id := pystr room, messages := parsed }])

/-- Socket `message` handler (src/app.py lines 96-115): guard only on
existence of the bound room key, build the content from the session name
(possibly absent), the payload and the receipt time, broadcast it to the
room first, then append it to the stored log.  `none` models the uncaught
exception raised when the messages field is absent or not an array. -/
def handle_message (store : Store) (sess : Session) (data now : String) :
    Option (List Event × Store) :=
  match lookupRoom store (pystr sess.room) with
  | none => some ([], store)
  | some rec =>
    let content : Message := ⟨sess.name, data, now⟩
    match rec.messages with
    | FieldVal.arr msgs =>
      some ([Event.sendRoom sess.room (Payload.msg content),
             Event.storeWrite (pystr sess.room) "messages"
               (FieldVal.arr (msgs ++ [content]))],
            hsetMessages store (pystr sess.room)
              (FieldVal.arr (msgs ++ [content])))
    | _ => none

/-- Socket `connect` handler (src/app.py lines 117-140): guard on truthy
room and name and on existence of the room key; join the delivery group,
insert the name into members and write back, send the updated member list
privately and broadcast it (both built from the one post-join dict), then
send the stored log privately.  `none` models the uncaught exception raised
on a malformed field. -/
def handle_connect (store : Store) (sess : Session) :
    Option (List Event × Store) :=
  if isFalsy sess.room || isFalsy sess.name then some ([], store)
  else
    let room := pystr sess.room
    match lookupRoom store room with
    | none => some ([], store)
    | some rec =>
      match rec.members with
      | FieldVal.obj m =>
        let m2 := setKeyTrue m (pystr sess.name)
        let store2 := hsetMembers store room (FieldVal.obj m2)
        match lookupRoom store2 room with
        | some rec2 =>
          match rec2.messages with
          | FieldVal.arr msgs =>
            some ([Event.joinGroup room,
                   Event.storeWrite room "members" (FieldVal.obj m2),
                   Event.sendPrivate (Payload.membersList (keysOf m2)),
                   Event.sendRoom sess.room (Payload.membersList (keysOf m2)),
                   Event.sendPrivate (Payload.prevMessages msgs)],
                  store2)
          | _ => none
        | none => none
      | _ => none

/-- Socket `disconnect` handler (src/app.py lines 142-159): guard on truthy
room and name and on existence of the room key; when the name is a member
key, delete it, write back and broadcast the updated member list; otherwise
do nothing.  `none` models the uncaught exception raised on a malformed
members field. -/
def handle_disconnect (store : Store) (sess : Session) :
    Option (List Event × Store) :=
  if isFalsy sess.room || isFalsy sess.name then some ([], store)
  else
    let room := pystr sess.room
    match lookupRoom store room with
    | none => some ([], store)
    | some rec =>
      match rec.members with
      | FieldVal.obj m =>
        let name := pystr sess.name
        if containsKey m name then
          let m2 := delKey m name
          some ([Event.storeWrite room "members" (FieldVal.obj m2),
                 Event.sendRoom sess.room (Payload.membersList (keysOf m2))],
                hsetMembers store room (FieldVal.obj m2))
        else some ([], store)
      | _ => none

/-- Store well-formedness: every allocated room code has a members field
parsing as a JSON object and a messages field parsing as a JSON array. -/
def StoreWF (store : Store) : Prop :=
  ∀ code rec, lookupRoom store code = some rec →
    (∃ m, rec.members = FieldVal.obj m) ∧
    (∃ msgs, rec.messages = FieldVal.arr msgs)

/-! Helper lemmas about the store primitives. -/

theorem lookupRoom_hsetMembers_self_none {store : Store} {c : String}
    (h : lookupRoom store c = none) (v : FieldVal) :
    lookupRoom (hsetMembers store c v) c = some ⟨v, FieldVal.missing⟩ := by
  induction store with
  | nil => simp [hsetMembers, lookupRoom]
  | cons kr rest ih =>
    obtain ⟨k, r⟩ := kr
    by_cases hk : k = c
    · simp [lookupRoom, hk] at h
    · simp [lookupRoom, hsetMembers, hk] at h ⊢
      exact ih h

theorem lookupRoom_hsetMembers_self_some {store : Store} {c : String}
    {r : RoomRecord} (h : lookupRoom store c = some r) (v : FieldVal) :
    lookupRoom (hsetMembers store c v) c = some { r with members := v } := by
  induction store with
  | nil => simp [lookupRoom] at h
  | cons kr rest ih =>
    obtain ⟨k, r'⟩ := kr
    by_cases hk : k = c
    · simp [lookupRoom, hk] at h
      simp [hsetMembers, hk, lookupRoom, h]
    · simp [lookupRoom, hk] at h
      simp [hsetMembers, hk, lookupRoom]
      exact ih h

theorem lookupRoom_hsetMembers_other {store : Store} {c c' : String}
    (h : c' ≠ c) (v : FieldVal) :
    lookupRoom (hsetMembers store c v) c' = lookupRoom store c' := by
  induction store with
  | nil => simp [hsetMembers, lookupRoom, Ne.symm h]
  | cons kr rest ih =>
    obtain ⟨k, r⟩ := kr
    by_cases hk : k = c
    · subst hk
      simp [hsetMembers, lookupRoom, Ne.symm h]
    · simp [hsetMembers, hk, lookupRoom]
      by_cases hk' : k = c'
      · simp [hk']
      · simp [hk', ih]

theorem lookupRoom_hsetMessages_self_none {store : Store} {c : String}
    (h : lookupRoom store c = none) (v : FieldVal) :
    lookupRoom (hsetMessages store c v) c = some ⟨FieldVal.missing, v⟩ := by
  induction store with
  | nil => simp [hsetMessages, lookupRoom]
  | cons kr rest ih =>
    obtain ⟨k, r⟩ := kr
    by_cases hk : k = c
    · simp [lookupRoom, hk] at h
    · simp [lookupRoom, hsetMessages, hk] at h ⊢
      exact ih h

theorem lookupRoom_hsetMessages_self_some {store : Store} {c : String}
    {r : RoomRecord} (h : lookupRoom store c = some r) (v : FieldVal) :
    lookupRoom (hsetMessages store c v) c = some { r with messages := v } := by
  induction store with
  | nil => simp [lookupRoom] at h
  | cons kr rest ih =>
    obtain ⟨k, r'⟩ := kr
    by_cases hk : k = c
    · simp [lookupRoom, hk] at h
      simp [hsetMessages, hk, lookupRoom, h]
    · simp [lookupRoom, hk] at h
      simp [hsetMessages, hk, lookupRoom]
      exact ih h

theorem lookupRoom_hsetMessages_other {store : Store} {c c' : String}
    (h : c' ≠ c) (v : FieldVal) :
    lookupRoom (hsetMessages store c v) c' = lookupRoom store c' := by
  induction store with
  | nil => simp [hsetMessages, lookupRoom, Ne.symm h]
  | cons kr rest ih =>
    obtain ⟨k, r⟩ := kr
    by_cases hk : k = c
    · subst hk
      simp [hsetMessages, lookupRoom, Ne.symm h]
    · simp [hsetMessages, hk, lookupRoom]
      by_cases hk' : k = c'
      · simp [hk']
      · simp [hk', ih]

theorem mem_keysOf_setKeyTrue (m : List (String × Bool)) (k : String) :
    k ∈ keysOf (setKeyTrue m k) := by
  induction m with
  | nil => simp [setKeyTrue, keysOf]
  | cons kv rest ih =>
    obtain ⟨k', v⟩ := kv
    by_cases hk : k' = k
    · simp [setKeyTrue, hk, keysOf]
    · simp [setKeyTrue, hk, keysOf] at ih ⊢
      exact Or.inr ih

/-! Concrete inputs used by the witnesses. -/

/-- A store holding one well-formed empty room "ABCDEF". -/
def storeOne : Store := [("ABCDEF", ⟨FieldVal.obj [], FieldVal.arr []⟩)]

/-- A session bound to room "ABCDEF" with display name "alice". -/
def sessAlice : Session := ⟨some "ABCDEF", some "alice"⟩

/-- The message content built for payload "hi" at receipt time "t0". -/
def msgHi : Message := ⟨some "alice", "hi", "t0"⟩

/-- A store holding one well-formed empty room "AAAAAA". -/
def storeSix : Store := [("AAAAAA", ⟨FieldVal.obj [], FieldVal.arr []⟩)]

/-- A draw oracle whose first six draws give letter A and later draws give
letter B, so attempt 0 collides with room "AAAAAA" and attempt 1 is fresh. -/
def pickAB : Nat → Fin 26 := fun k => if k < 6 then 0 else 1

/-- Some attempt of `pickAB` over `storeSix` yields an unallocated code. -/
theorem pickAB_succeeds :
    ∃ n, lookupRoom storeSix (sampleCode 6 pickAB n) = none := ⟨1, by decide⟩

/-- C1: with a session bound to an existing room `R` and name `N`, the
message handler broadcasts the content built from the payload and receipt
time to room `R` before the store write, and the room's log afterwards is
the old log with exactly that content appended (length up by one, last entry
equal to the broadcast content). -/
theorem handle_message_broadcast_then_append
    (store : Store) (sess : Session) (R N data now : String)
    (rec : RoomRecord) (msgs : List Message)
    (hroom : sess.room = some R) (hname : sess.name = some N)
    (hrec : lookupRoom store R = some rec)
    (hmsgs : rec.messages = FieldVal.arr msgs) :
    handle_message store sess data now =
      some ([Event.sendRoom (some R) (Payload.msg ⟨some N, data, now⟩),
             Event.storeWrite R "messages"
               (FieldVal.arr (msgs ++ [⟨some N, data, now⟩]))],
            hsetMessages store R
              (FieldVal.arr (msgs ++ [⟨some N, data, now⟩]))) ∧
    lookupRoom
        (hsetMessages store R (FieldVal.arr (msgs ++ [⟨some N, data, now⟩])))
        R =
      some { rec with
             messages := FieldVal.arr (msgs ++ [⟨some N, data, now⟩]) } ∧
    (msgs ++ [(⟨some N, data, now⟩ : Message)]).length = msgs.length + 1 ∧
    (msgs ++ [(⟨some N, data, now⟩ : Message)]).getLast? =
      some ⟨some N, data, now⟩ := by
  refine ⟨?_, lookupRoom_hsetMessages_self_some hrec _, by simp, by simp⟩
  simp [handle_message, hroom, hname, pystr, hrec, hmsgs]

/-- Witness for C1 on room "ABCDEF", name "alice", payload "hi". -/
theorem handle_message_broadcast_then_append_witness :
    sessAlice.room = some "ABCDEF" ∧
    sessAlice.name = some "alice" ∧
    lookupRoom storeOne "ABCDEF" =
      some ⟨FieldVal.obj [], FieldVal.arr []⟩ ∧
    (RoomRecord.mk (FieldVal.obj []) (FieldVal.arr [])).messages =
      FieldVal.arr [] ∧
    (handle_message storeOne sessAlice "hi" "t0" =
        some ([Event.sendRoom (some "ABCDEF") (Payload.msg msgHi),
               Event.storeWrite "ABCDEF" "messages" (FieldVal.arr [msgHi])],
              hsetMessages storeOne "ABCDEF" (FieldVal.arr [msgHi])) ∧
      lookupRoom (hsetMessages storeOne "ABCDEF" (FieldVal.arr [msgHi]))
          "ABCDEF" =
        some ⟨FieldVal.obj [], FieldVal.arr [msgHi]⟩ ∧
      (([] : List Message) ++ [msgHi]).length = ([] : List Message).length + 1 ∧
      (([] : List Message) ++ [msgHi]).getLast? = some msgHi) :=
  ⟨rfl, rfl, by decide, rfl,
   handle_message_broadcast_then_append storeOne sessAlice "ABCDEF" "alice"
     "hi" "t0" ⟨FieldVal.obj [], FieldVal.arr []⟩ [] rfl rfl (by decide) rfl⟩

/-- C2: on connect with a session bound to an existing room `R` and name `N`
(both truthy), the private member-list delivery and the room-wide broadcast
carry the same list, computed from the single post-join members map, which
contains `N`; on a room with no prior members both lists are exactly `[N]`. -/
theorem handle_connect_single_snapshot
    (store : Store) (sess : Session) (R N : String)
    (rec : RoomRecord) (m : List (String × Bool)) (msgs : List Message)
    (hroom : sess.room = some R) (hname : sess.name = some N)
    (hR : R ≠ "") (hN : N ≠ "")
    (hrec : lookupRoom store R = some rec)
    (hm : rec.members = FieldVal.obj m)
    (hmsgs : rec.messages = FieldVal.arr msgs) :
    handle_connect store sess =
      some ([Event.joinGroup R,
             Event.storeWrite R "members" (FieldVal.obj (setKeyTrue m N)),
             Event.sendPrivate (Payload.membersList (keysOf (setKeyTrue m N))),
             Event.sendRoom (some R)
               (Payload.membersList (keysOf (setKeyTrue m N))),
             Event.sendPrivate (Payload.prevMessages msgs)],
            hsetMembers store R (FieldVal.obj (setKeyTrue m N))) ∧
    N ∈ keysOf (setKeyTrue m N) ∧
    (m = [] → keysOf (setKeyTrue m N) = [N]) := by
  refine ⟨?_, mem_keysOf_setKeyTrue m N, ?_⟩
  · have h2 := lookupRoom_hsetMembers_self_some hrec
      (FieldVal.obj (setKeyTrue m N))
    simp [handle_connect, hroom, hname, isFalsy, hR, hN, pystr, hrec, hm,
      hmsgs, h2]
  · rintro rfl
    simp [setKeyTrue, keysOf]

/-- Witness for C2: connecting "alice" to the empty room "ABCDEF". -/
theorem handle_connect_single_snapshot_witness :
    sessAlice.room = some "ABCDEF" ∧
    sessAlice.name = some "alice" ∧
    ("ABCDEF" : String) ≠ "" ∧
    ("alice" : String) ≠ "" ∧
    lookupRoom storeOne "ABCDEF" =
      some ⟨FieldVal.obj [], FieldVal.arr []⟩ ∧
    (RoomRecord.mk (FieldVal.obj []) (FieldVal.arr [])).members =
      FieldVal.obj [] ∧
    (RoomRecord.mk (FieldVal.obj []) (FieldVal.arr [])).messages =
      FieldVal.arr [] ∧
    (handle_connect storeOne sessAlice =
        some ([Event.joinGroup "ABCDEF",
               Event.storeWrite "ABCDEF" "members"
                 (FieldVal.obj (setKeyTrue [] "alice")),
               Event.sendPrivate
                 (Payload.membersList (keysOf (setKeyTrue [] "alice"))),
               Event.sendRoom (some "ABCDEF")
                 (Payload.membersList (keysOf (setKeyTrue [] "alice"))),
               Event.sendPrivate (Payload.prevMessages [])],
              hsetMembers storeOne "ABCDEF"
                (FieldVal.obj (setKeyTrue [] "alice"))) ∧
      "alice" ∈ keysOf (setKeyTrue [] "alice") ∧
      (([] : List (String × Bool)) = [] →
        keysOf (setKeyTrue [] "alice") = ["alice"])) :=
  ⟨rfl, rfl, by decide, by decide, by decide, rfl, rfl,
   handle_connect_single_snapshot storeOne sessAlice "ABCDEF" "alice"
     ⟨FieldVal.obj [], FieldVal.arr []⟩ [] [] rfl rfl (by decide) (by decide)
     (by decide) rfl rfl⟩

/-- C3: a create-room call with a truthy name allocates a code that was not
previously allocated, of length exactly 6 with every character drawn from the
uppercase alphabet, and the room exists immediately afterwards with an empty
members object and an empty messages array. -/
theorem create_room_allocates_fresh
    (store : Store) (sess : Session) (s : String) (pick : Nat → Fin 26)
    (hs : s ≠ "")
    (h : ∃ n, lookupRoom store (sampleCode 6 pick n) = none) :
    create_room store sess (some s) pick h =
      (ApiResult.ok (some (generate_unique_code store 6 pick h)) (some s),
       hsetMessages
         (hsetMembers store (generate_unique_code store 6 pick h)
           (FieldVal.obj []))
         (generate_unique_code store 6 pick h) (FieldVal.arr []),
       { room := some (generate_unique_code store 6 pick h),
         name := some s }) ∧
    lookupRoom store (generate_unique_code store 6 pick h) = none ∧
    lookupRoom
        (hsetMessages
          (hsetMembers store (generate_unique_code store 6 pick h)
            (FieldVal.obj []))
          (generate_unique_code store 6 pick h) (FieldVal.arr []))
        (generate_unique_code store 6 pick h) =
      some ⟨FieldVal.obj [], FieldVal.arr []⟩ ∧
    (generate_unique_code store 6 pick h).length = 6 ∧
    ∀ c ∈ (generate_unique_code store 6 pick h).data, c ∈ ascii_uppercase := by
  have hfresh : lookupRoom store (generate_unique_code store 6 pick h) =
      none := Nat.find_spec h
  refine ⟨?_, hfresh, ?_, ?_, ?_⟩
  · simp [create_room, isFalsy, hs]
  · exact lookupRoom_hsetMessages_self_some
      (lookupRoom_hsetMembers_self_none hfresh (FieldVal.obj []))
      (FieldVal.arr [])
  · simp [generate_unique_code, sampleCode, String.length]
  · intro c hc
    have hc2 : c ∈ (List.range 6).map
        (fun i => chooseUpper pick (Nat.find h * 6 + i)) := hc
    obtain ⟨i, _, rfl⟩ := List.mem_map.mp hc2
    simp only [chooseUpper]
    exact List.get_mem _ _ _

/-- Witness for C3: creating a room named "bob" over the store holding only
room "AAAAAA", with the draw oracle that collides once and then yields
"BBBBBB". -/
theorem create_room_allocates_fresh_witness :
    ("bob" : String) ≠ "" ∧
    (∃ n, lookupRoom storeSix (sampleCode 6 pickAB n) = none) ∧
    (create_room storeSix ⟨none, none⟩ (some "bob") pickAB pickAB_succeeds =
      (ApiResult.ok (some (generate_unique_code storeSix 6 pickAB
          pickAB_succeeds)) (some "bob"),
       hsetMessages
         (hsetMembers storeSix
           (generate_unique_code storeSix 6 pickAB pickAB_succeeds)
           (FieldVal.obj []))
         (generate_unique_code storeSix 6 pickAB pickAB_succeeds)
         (FieldVal.arr []),
       { room := some (generate_unique_code storeSix 6 pickAB
           pickAB_succeeds),
         name := some "bob" }) ∧
    lookupRoom storeSix
        (generate_unique_code storeSix 6 pickAB pickAB_succeeds) = none ∧
    lookupRoom
        (hsetMessages
          (hsetMembers storeSix
            (generate_unique_code storeSix 6 pickAB pickAB_succeeds)
            (FieldVal.obj []))
          (generate_unique_code storeSix 6 pickAB pickAB_succeeds)
          (FieldVal.arr []))
        (generate_unique_code storeSix 6 pickAB pickAB_succeeds) =
      some ⟨FieldVal.obj [], FieldVal.arr []⟩ ∧
    (generate_unique_code storeSix 6 pickAB pickAB_succeeds).length = 6 ∧
    ∀ c ∈ (generate_unique_code storeSix 6 pickAB pickAB_succeeds).data,
      c ∈ ascii_uppercase) :=
  ⟨by decide, pickAB_succeeds,
   create_room_allocates_fresh storeSix ⟨none, none⟩ "bob" pickAB (by decide)
     pickAB_succeeds⟩

/-- C9: under the precondition that some attempt of the draw oracle yields an
unallocated code, the generator terminates with a code that is unallocated at
its existence check, and that code is the first unallocated code in the
sampled stream (every earlier attempt was allocated). -/
theorem generate_unique_code_first_unallocated
    (store : Store) (len : Nat) (pick : Nat → Fin 26)
    (h : ∃ n, lookupRoom store (sampleCode len pick n) = none) :
    lookupRoom store (generate_unique_code store len pick h) = none ∧
    ∃ n, generate_unique_code store len pick h = sampleCode len pick n ∧
      lookupRoom store (sampleCode len pick n) = none ∧
      ∀ k, k < n → lookupRoom store (sampleCode len pick k) ≠ none := by
  exact ⟨Nat.find_spec h, Nat.find h, rfl, Nat.find_spec h,
    fun k hk => Nat.find_min h hk⟩

/-- Witness for C9: over the store holding room "AAAAAA", the oracle whose
attempt 0 samples "AAAAAA" and attempt 1 samples "BBBBBB" terminates on the
first unallocated sample. -/
theorem generate_unique_code_first_unallocated_witness :
    (∃ n, lookupRoom storeSix (sampleCode 6 pickAB n) = none) ∧
    (lookupRoom storeSix
        (generate_unique_code storeSix 6 pickAB pickAB_succeeds) = none ∧
     ∃ n, generate_unique_code storeSix 6 pickAB pickAB_succeeds =
        sampleCode 6 pickAB n ∧
      lookupRoom storeSix (sampleCode 6 pickAB n) = none ∧
      ∀ k, k < n → lookupRoom storeSix (sampleCode 6 pickAB k) ≠ none) :=
  ⟨pickAB_succeeds,
   generate_unique_code_first_unallocated storeSix 6 pickAB pickAB_succeeds⟩

/-- C4 counterexample: joining nonexistent room "ZZZZZZ" with an empty name
returns NameRequired, not RoomNotFound — the name guard fires first. -/
theorem join_room_empty_name_counterexample :
    lookupRoom [] (pystr (some "ZZZZZZ")) = none ∧
    join_room_api [] ⟨none, none⟩ (some "") (some "ZZZZZZ") =
      (ApiResult.nameRequired, ⟨none, none⟩) ∧
    ApiResult.nameRequired ≠ ApiResult.roomNotFound :=
  ⟨rfl, rfl, by decide⟩

/-- C4 amended: a join-room request with a truthy (present, non-empty) name
and a code that does not name an existing room yields RoomNotFound; with a
missing or empty name the NameRequired error takes precedence. -/
theorem join_room_not_found
    (store : Store) (sess : Session) (name code : Option String)
    (hname : isFalsy name = false)
    (hcode : lookupRoom store (pystr code) = none) :
    join_room_api store sess name code = (ApiResult.roomNotFound, sess) := by
  simp [join_room_api, hname, hcode]

/-- Witness for the amended C4: name "alice", nonexistent code "ZZZZZZ". -/
theorem join_room_not_found_witness :
    isFalsy (some "alice") = false ∧
    lookupRoom [] (pystr (some "ZZZZZZ")) = none ∧
    join_room_api [] ⟨none, none⟩ (some "alice") (some "ZZZZZZ") =
      (ApiResult.roomNotFound, ⟨none, none⟩) :=
  ⟨by decide, rfl,
   join_room_not_found [] ⟨none, none⟩ (some "alice") (some "ZZZZZZ")
     (by decide) rfl⟩

/-- The two-member map reached by connecting "alice" and then "bob". -/
def membersAB : List (String × Bool) := [("alice", true), ("bob", true)]

/-- A store whose room "ABCDEF" holds members "alice" and "bob". -/
def storeAB : Store := [("ABCDEF", ⟨FieldVal.obj membersAB, FieldVal.arr []⟩)]

/-- C5: on disconnect with a truthy binding to an existing room, when the
bound name is a member key the handler deletes it, writes the map back and
broadcasts the updated member-name list; when the name is not a member key
it performs no store write and no broadcast. -/
theorem handle_disconnect_removes_or_noop
    (store : Store) (sess : Session) (R N : String)
    (rec : RoomRecord) (m : List (String × Bool))
    (hroom : sess.room = some R) (hname : sess.name = some N)
    (hR : R ≠ "") (hN : N ≠ "")
    (hrec : lookupRoom store R = some rec)
    (hm : rec.members = FieldVal.obj m) :
    (containsKey m N = true →
      handle_disconnect store sess =
        some ([Event.storeWrite R "members" (FieldVal.obj (delKey m N)),
               Event.sendRoom (some R)
                 (Payload.membersList (keysOf (delKey m N)))],
              hsetMembers store R (FieldVal.obj (delKey m N)))) ∧
    (containsKey m N = false →
      handle_disconnect store sess = some ([], store)) := by
  constructor
  · intro hc
    simp [handle_disconnect, hroom, hname, isFalsy, hR, hN, pystr, hrec, hm,
      hc]
  · intro hc
    simp [handle_disconnect, hroom, hname, isFalsy, hR, hN, pystr, hrec, hm,
      hc]

/-- Witness for C5: after connects of "alice" then "bob", disconnecting
"alice" broadcasts member list containing exactly "bob". -/
theorem handle_disconnect_removes_or_noop_witness :
    sessAlice.room = some "ABCDEF" ∧
    sessAlice.name = some "alice" ∧
    lookupRoom storeAB "ABCDEF" =
      some ⟨FieldVal.obj membersAB, FieldVal.arr []⟩ ∧
    containsKey membersAB "alice" = true ∧
    keysOf (delKey membersAB "alice") = ["bob"] ∧
    handle_disconnect storeAB sessAlice =
      some ([Event.storeWrite "ABCDEF" "members"
               (FieldVal.obj (delKey membersAB "alice")),
             Event.sendRoom (some "ABCDEF")
               (Payload.membersList (keysOf (delKey membersAB "alice")))],
            hsetMembers storeAB "ABCDEF"
              (FieldVal.obj (delKey membersAB "alice"))) :=
  ⟨rfl, rfl, by decide, by decide, by decide,
   (handle_disconnect_removes_or_noop storeAB sessAlice "ABCDEF" "alice"
      ⟨FieldVal.obj membersAB, FieldVal.arr []⟩ membersAB rfl rfl (by decide)
      (by decide) (by decide) rfl).1 (by decide)⟩

/-- C6: save-chat on an existing room with log `msgs` appends exactly one
archive record carrying the room id and the current log in order, leaves the
Redis store unchanged, and a second call appends a second independent record
rather than updating the first. -/
theorem save_chat_snapshot
    (store : Store) (chats : List ChatRecord) (R : String)
    (rec : RoomRecord) (msgs : List Message)
    (hR : R ≠ "")
    (hrec : lookupRoom store R = some rec)
    (hmsgs : rec.messages = FieldVal.arr msgs) :
    save_chat store chats (some R) =
      (ApiResult.saved, store,
       chats ++ [{ room_id := R, messages := FieldVal.arr msgs }]) ∧
    (chats ++
        [({ room_id := R, messages := FieldVal.arr msgs } : ChatRecord)]).length =
      chats.length + 1 ∧
    save_chat store
        (chats ++ [{ room_id := R, messages := FieldVal.arr msgs }])
        (some R) =
      (ApiResult.saved, store,
       chats ++ [{ room_id := R, messages := FieldVal.arr msgs },
                 { room_id := R, messages := FieldVal.arr msgs }]) := by
  refine ⟨?_, by simp, ?_⟩
  · simp [save_chat, isFalsy, hR, pystr, hrec, hmsgs]
  · simp [save_chat, isFalsy, hR, pystr, hrec, hmsgs]

/-- A store whose room "ABCDEF" has one logged message. -/
def storeMsg : Store := [("ABCDEF", ⟨FieldVal.obj [], FieldVal.arr [msgHi]⟩)]

/-- Witness for C6: exporting room "ABCDEF" holding one message, twice. -/
theorem save_chat_snapshot_witness :
    ("ABCDEF" : String) ≠ "" ∧
    lookupRoom storeMsg "ABCDEF" =
      some ⟨FieldVal.obj [], FieldVal.arr [msgHi]⟩ ∧
    (save_chat storeMsg [] (some "ABCDEF") =
      (ApiResult.saved, storeMsg,
       [] ++ [{ room_id := "ABCDEF", messages := FieldVal.arr [msgHi] }]) ∧
    (([] : List ChatRecord) ++
        [({ room_id := "ABCDEF",
            messages := FieldVal.arr [msgHi] } : ChatRecord)]).length =
      ([] : List ChatRecord).length + 1 ∧
    save_chat storeMsg
        ([] ++ [{ room_id := "ABCDEF", messages := FieldVal.arr [msgHi] }])
        (some "ABCDEF") =
      (ApiResult.saved, storeMsg,
       [] ++ [{ room_id := "ABCDEF", messages := FieldVal.arr [msgHi] },
              { room_id := "ABCDEF", messages := FieldVal.arr [msgHi] }])) :=
  ⟨by decide, by decide,
   save_chat_snapshot storeMsg [] "ABCDEF"
     ⟨FieldVal.obj [], FieldVal.arr [msgHi]⟩ [msgHi] (by decide) (by decide)
     rfl⟩

/-- C7: a connect, message or disconnect event whose session has no bound
room, or whose bound room code does not exist in the store, performs no
broadcast, no private delivery and no store mutation.  The hypothesis on the
literal key "None" (the f-string rendering of an unbound room) is sound for
every reachable store: allocated codes are six uppercase characters. -/
theorem unbound_or_missing_room_noop
    (store : Store) (sess : Session) (data now : String)
    (hnone : lookupRoom store "None" = none)
    (h : sess.room = none ∨
      ∃ r, sess.room = some r ∧ lookupRoom store r = none) :
    handle_message store sess data now = some ([], store) ∧
    handle_connect store sess = some ([], store) ∧
    handle_disconnect store sess = some ([], store) := by
  obtain hr | ⟨r, hr, hlook⟩ := h
  · exact ⟨by simp [handle_message, hr, pystr, hnone],
      by simp [handle_connect, hr, isFalsy],
      by simp [handle_disconnect, hr, isFalsy]⟩
  · exact ⟨by simp [handle_message, hr, pystr, hlook],
      by simp [handle_connect, hr, pystr, hlook],
      by simp [handle_disconnect, hr, pystr, hlook]⟩

/-- Witness for C7: a session with no bound room against the store holding
room "ABCDEF". -/
theorem unbound_or_missing_room_noop_witness :
    lookupRoom storeOne "None" = none ∧
    ((Session.mk none (some "alice")).room = none ∨
      ∃ r, (Session.mk none (some "alice")).room = some r ∧
        lookupRoom storeOne r = none) ∧
    (handle_message storeOne ⟨none, some "alice"⟩ "hi" "t0" =
        some ([], storeOne) ∧
      handle_connect storeOne ⟨none, some "alice"⟩ = some ([], storeOne) ∧
      handle_disconnect storeOne ⟨none, some "alice"⟩ =
        some ([], storeOne)) :=
  ⟨by decide, Or.inl rfl,
   unbound_or_missing_room_noop storeOne ⟨none, some "alice"⟩ "hi" "t0"
     (by decide) (Or.inl rfl)⟩

/-- C8 counterexample: a message event whose session binds an existing room
but no display name IS honored — the handler broadcasts the content with an
absent sender name and appends it to the log, mutating the store. -/
theorem message_without_name_counterexample :
    (Session.mk (some "ABCDEF") none).name = none ∧
    handle_message storeOne ⟨some "ABCDEF", none⟩ "hi" "t0" =
      some ([Event.sendRoom (some "ABCDEF") (Payload.msg ⟨none, "hi", "t0"⟩),
             Event.storeWrite "ABCDEF" "messages"
               (FieldVal.arr [⟨none, "hi", "t0"⟩])],
            [("ABCDEF",
              ⟨FieldVal.obj [], FieldVal.arr [⟨none, "hi", "t0"⟩]⟩)]) ∧
    [("ABCDEF",
      (⟨FieldVal.obj [],
        FieldVal.arr [⟨none, "hi", "t0"⟩]⟩ : RoomRecord))] ≠ storeOne :=
  ⟨rfl, by decide, by decide⟩

/-- C8 amended: connect and disconnect are honored only when the session
binds both a truthy room and a truthy name referencing an existing room, but
the message handler honors an incoming message whenever the bound room key
exists, even with no bound display name: it then broadcasts and appends
content whose sender name is absent. -/
theorem binding_guard_asymmetry
    (store : Store) (sess : Session) (data now : String) (R : String)
    (rec : RoomRecord) (msgs : List Message)
    (hname : sess.name = none) (hroom : sess.room = some R)
    (hrec : lookupRoom store R = some rec)
    (hmsgs : rec.messages = FieldVal.arr msgs) :
    handle_connect store sess = some ([], store) ∧
    handle_disconnect store sess = some ([], store) ∧
    handle_message store sess data now =
      some ([Event.sendRoom (some R) (Payload.msg ⟨none, data, now⟩),
             Event.storeWrite R "messages"
               (FieldVal.arr (msgs ++ [⟨none, data, now⟩]))],
            hsetMessages store R
              (FieldVal.arr (msgs ++ [⟨none, data, now⟩]))) := by
  refine ⟨?_, ?_, ?_⟩
  · simp [handle_connect, hname, isFalsy]
  · simp [handle_disconnect, hname, isFalsy]
  · simp [handle_message, hroom, hname, pystr, hrec, hmsgs]

/-- Witness for the amended C8: room "ABCDEF" exists, no name is bound. -/
theorem binding_guard_asymmetry_witness :
    (Session.mk (some "ABCDEF") none).name = none ∧
    (Session.mk (some "ABCDEF") none).room = some "ABCDEF" ∧
    lookupRoom storeOne "ABCDEF" =
      some ⟨FieldVal.obj [], FieldVal.arr []⟩ ∧
    (handle_connect storeOne ⟨some "ABCDEF", none⟩ = some ([], storeOne) ∧
      handle_disconnect storeOne ⟨some "ABCDEF", none⟩ =
        some ([], storeOne) ∧
      handle_message storeOne ⟨some "ABCDEF", none⟩ "hi" "t0" =
        some ([Event.sendRoom (some "ABCDEF")
                 (Payload.msg ⟨none, "hi", "t0"⟩),
               Event.storeWrite "ABCDEF" "messages"
                 (FieldVal.arr ([] ++ [⟨none, "hi", "t0"⟩]))],
              hsetMessages storeOne "ABCDEF"
                (FieldVal.arr ([] ++ [⟨none, "hi", "t0"⟩])))) :=
  ⟨rfl, rfl, by decide,
   binding_guard_asymmetry storeOne ⟨some "ABCDEF", none⟩ "hi" "t0" "ABCDEF"
     ⟨FieldVal.obj [], FieldVal.arr []⟩ [] rfl rfl (by decide) rfl⟩

/-- Writing a JSON object into the members field of an existing room keeps
the store well-formed. -/
theorem storeWF_hsetMembers {store : Store} {c : String} {r : RoomRecord}
    (hwf : StoreWF store) (hc : lookupRoom store c = some r)
    (m : List (String × Bool)) :
    StoreWF (hsetMembers store c (FieldVal.obj m)) := by
  intro code rec hlook
  by_cases hcc : code = c
  · subst hcc
    rw [lookupRoom_hsetMembers_self_some hc] at hlook
    obtain rfl := (Option.some.inj hlook).symm
    exact ⟨⟨m, rfl⟩, (hwf code r hc).2⟩
  · rw [lookupRoom_hsetMembers_other hcc] at hlook
    exact hwf code rec hlook

/-- Writing a JSON array into the messages field of an existing room keeps
the store well-formed. -/
theorem storeWF_hsetMessages {store : Store} {c : String} {r : RoomRecord}
    (hwf : StoreWF store) (hc : lookupRoom store c = some r)
    (msgs : List Message) :
    StoreWF (hsetMessages store c (FieldVal.arr msgs)) := by
  intro code rec hlook
  by_cases hcc : code = c
  · subst hcc
    rw [lookupRoom_hsetMessages_self_some hc] at hlook
    obtain rfl := (Option.some.inj hlook).symm
    exact ⟨(hwf code r hc).1, ⟨msgs, rfl⟩⟩
  · rw [lookupRoom_hsetMessages_other hcc] at hlook
    exact hwf code rec hlook

/-- Initialising a previously unallocated room with an empty object and an
empty array keeps the store well-formed. -/
theorem storeWF_initRoom {store : Store} {c : String}
    (hwf : StoreWF store) (hc : lookupRoom store c = none) :
    StoreWF (hsetMessages (hsetMembers store c (FieldVal.obj [])) c
      (FieldVal.arr [])) := by
  intro code rec hlook
  by_cases hcc : code = c
  · subst hcc
    rw [lookupRoom_hsetMessages_self_some
      (lookupRoom_hsetMembers_self_none hc (FieldVal.obj []))] at hlook
    obtain rfl := (Option.some.inj hlook).symm
    exact ⟨⟨[], rfl⟩, ⟨[], rfl⟩⟩
  · rw [lookupRoom_hsetMessages_other hcc,
      lookupRoom_hsetMembers_other hcc] at hlook
    exact hwf code rec hlook

/-- C10: a well-formed store (every allocated room's members field parses as
a JSON object and its messages field as a JSON array) stays well-formed
under every store-touching operation of the core, and consequently the
unguarded JSON parses in the connect, message and disconnect handlers never
fail: each handler returns normally on every session.  The join-room
endpoint performs no store write, so it preserves the invariant trivially. -/
theorem store_invariant_preserved
    (store : Store) (hwf : StoreWF store) :
    (∀ sess name pick h, StoreWF (create_room store sess name pick h).2.1) ∧
    (∀ chats room, (save_chat store chats room).2.1 = store) ∧
    (∀ sess data now, ∃ tr store2,
      handle_message store sess data now = some (tr, store2) ∧
        StoreWF store2) ∧
    (∀ sess, ∃ tr store2,
      handle_connect store sess = some (tr, store2) ∧ StoreWF store2) ∧
    (∀ sess, ∃ tr store2,
      handle_disconnect store sess = some (tr, store2) ∧ StoreWF store2) := by
  refine ⟨?_, ?_, ?_, ?_, ?_⟩
  · intro sess name pick h
    by_cases hn : isFalsy name
    · simpa [create_room, hn] using hwf
    · simpa [create_room, hn] using storeWF_initRoom hwf (Nat.find_spec h)
  · intro chats room
    cases hfr : isFalsy room
    · cases hlook : lookupRoom store (pystr room) <;>
        simp [save_chat, hfr, hlook]
    · simp [save_chat, hfr]
  · intro sess data now
    cases hlook : lookupRoom store (pystr sess.room) with
    | none => exact ⟨[], store, by simp [handle_message, hlook], hwf⟩
    | some rec =>
      obtain ⟨⟨m, hm⟩, ⟨msgs, hmsgs⟩⟩ := hwf _ _ hlook
      refine ⟨[Event.sendRoom sess.room
                 (Payload.msg ⟨sess.name, data, now⟩),
               Event.storeWrite (pystr sess.room) "messages"
                 (FieldVal.arr (msgs ++ [⟨sess.name, data, now⟩]))],
              hsetMessages store (pystr sess.room)
                (FieldVal.arr (msgs ++ [⟨sess.name, data, now⟩])),
              ?_, storeWF_hsetMessages hwf hlook _⟩
      simp [handle_message, hlook, hmsgs]
  · intro sess
    cases hg : (isFalsy sess.room || isFalsy sess.name)
    · cases hlook : lookupRoom store (pystr sess.room) with
      | none => exact ⟨[], store, by simp [handle_connect, hg, hlook], hwf⟩
      | some rec =>
        obtain ⟨⟨m, hm⟩, ⟨msgs, hmsgs⟩⟩ := hwf _ _ hlook
        have h2 := lookupRoom_hsetMembers_self_some hlook
          (FieldVal.obj (setKeyTrue m (pystr sess.name)))
        refine ⟨[Event.joinGroup (pystr sess.room),
                 Event.storeWrite (pystr sess.room) "members"
                   (FieldVal.obj (setKeyTrue m (pystr sess.name))),
                 Event.sendPrivate (Payload.membersList
                   (keysOf (setKeyTrue m (pystr sess.name)))),
                 Event.sendRoom sess.room (Payload.membersList
                   (keysOf (setKeyTrue m (pystr sess.name)))),
                 Event.sendPrivate (Payload.prevMessages msgs)],
                hsetMembers store (pystr sess.room)
                  (FieldVal.obj (setKeyTrue m (pystr sess.name))),
                ?_, storeWF_hsetMembers hwf hlook _⟩
        simp [handle_connect, hg, hlook, hm, hmsgs, h2]
    · exact ⟨[], store, by simp [handle_connect, hg], hwf⟩
  · intro sess
    cases hg : (isFalsy sess.room || isFalsy sess.name)
    · cases hlook : lookupRoom store (pystr sess.room) with
      | none =>
        exact ⟨[], store, by simp [handle_disconnect, hg, hlook], hwf⟩
      | some rec =>
        obtain ⟨⟨m, hm⟩, ⟨msgs, hmsgs⟩⟩ := hwf _ _ hlook
        cases hck : containsKey m (pystr sess.name)
        · exact ⟨[], store,
            by simp [handle_disconnect, hg, hlook, hm, hck], hwf⟩
        · refine ⟨[Event.storeWrite (pystr sess.room) "members"
                     (FieldVal.obj (delKey m (pystr sess.name))),
                   Event.sendRoom sess.room (Payload.membersList
                     (keysOf (delKey m (pystr sess.name))))],
                  hsetMembers store (pystr sess.room)
                    (FieldVal.obj (delKey m (pystr sess.name))),
                  ?_, storeWF_hsetMembers hwf hlook _⟩
          simp [handle_disconnect, hg, hlook, hm, hck]
    · exact ⟨[], store, by simp [handle_disconnect, hg], hwf⟩

/-- The one-room store "ABCDEF" with empty fields is well-formed. -/
theorem storeOne_wf : StoreWF storeOne := by
  intro code rec h
  simp only [storeOne, lookupRoom] at h
  split at h
  · obtain rfl := (Option.some.inj h).symm
    exact ⟨⟨[], rfl⟩, ⟨[], rfl⟩⟩
  · exact absurd h (by simp)

/-- Witness for C10 over the concrete well-formed one-room store. -/
theorem store_invariant_preserved_witness :
    StoreWF storeOne ∧
    ((∀ sess name pick h,
        StoreWF (create_room storeOne sess name pick h).2.1) ∧
      (∀ chats room, (save_chat storeOne chats room).2.1 = storeOne) ∧
      (∀ sess data now, ∃ tr store2,
        handle_message storeOne sess data now = some (tr, store2) ∧
          StoreWF store2) ∧
      (∀ sess, ∃ tr store2,
        handle_connect storeOne sess = some (tr, store2) ∧ StoreWF store2) ∧
      (∀ sess, ∃ tr store2,
        handle_disconnect storeOne sess = some (tr, store2) ∧
          StoreWF store2)) :=
  ⟨storeOne_wf, store_invariant_preserved storeOne storeOne_wf⟩
